import Mathlib

/-!
Verification development for the investment-lifecycle module of the
Profyt-opt server.  The JavaScript source is embedded shallowly:
JS numbers are modelled as rationals (ℚ), epoch times in milliseconds as
rationals, fallible operations return Option, and the stateful route
handlers are explicit state-passing functions over association lists.
-/

/-- JS Math.round: rounds half toward positive infinity
(Math.round x = floor (x + 0.5)). -/
def jsRound (q : ℚ) : ℤ := ⌊q + 1/2⌋

/-- JS remainder operator a % b, restricted to the case used by the source
(nonnegative dividend, positive divisor), where truncation toward zero
agrees with the floor. -/
def jsModPos (a b : ℚ) : ℚ := a - b * ⌊a / b⌋

/-- ASCII whitespace characters, embedding the regex class backslash-s and
String.prototype.trim for the ASCII inputs this module handles. -/
def isJsWhitespace (c : Char) : Bool :=
  c = ' ' || c = '\t' || c = '\n' || c = '\r' || c = Char.ofNat 11 || c = Char.ofNat 12

/-- Embedding of String.prototype.trim (ASCII whitespace). -/
def jsTrim (s : String) : String :=
  String.mk (((s.data.dropWhile (fun c => isJsWhitespace c)).reverse.dropWhile
    (fun c => isJsWhitespace c)).reverse)

/-- Embedding of String.prototype.toLowerCase (ASCII letters, matching JS on
the ASCII unit names this module parses). -/
def jsToLowercase (s : String) : String := String.mk (s.data.map Char.toLower)

/-- Embedding of parseInt on a nonempty digit string. -/
def digitsToNat (ds : List Char) : ℕ := ds.foldl (fun n c => 10 * n + (c.toNat - 48)) 0

/-- Millisecond span of one duration unit, from the switch statement of
parseDurationToMilliseconds in src/utils/dateUtils.js (month = 30.44 days,
year = 365.25 days). -/
def unitToMilliseconds (u : String) : Option ℚ :=
  if u = "minute" || u = "minutes" then some (60 * 1000)
  else if u = "hour" || u = "hours" then some (60 * 60 * 1000)
  else if u = "day" || u = "days" then some (24 * 60 * 60 * 1000)
  else if u = "week" || u = "weeks" then some (7 * 24 * 60 * 60 * 1000)
  else if u = "month" || u = "months" then some ((30.44 : ℚ) * 24 * 60 * 60 * 1000)
  else if u = "year" || u = "years" then some ((365.25 : ℚ) * 24 * 60 * 60 * 1000)
  else none

/-- Embedding of parseDurationToMilliseconds (src/utils/dateUtils.js):
lowercase, trim, match the anchored regex digits-whitespace-unit, convert.
A failed match (the thrown Error) is `none`. -/
def parseDurationToMilliseconds (durationString : String) : Option ℚ :=
  let d := jsTrim (jsToLowercase durationString)
  let cs := d.data
  let ds := cs.takeWhile (fun c => c.isDigit)
  let rest := cs.dropWhile (fun c => c.isDigit)
  let sp := rest.takeWhile (fun c => isJsWhitespace c)
  let unit := rest.dropWhile (fun c => isJsWhitespace c)
  if ds.isEmpty || sp.isEmpty then none
  else
    match unitToMilliseconds (String.mk unit) with
    | none => none
    | some ms => some ((digitsToNat ds : ℚ) * ms)

/-- Embedding of calculateEndDate (src/utils/dateUtils.js): start plus the
parsed span; `none` when the duration string is malformed (the JS throw). -/
def calculateEndDate (startDate : ℚ) (durationString : String) : Option ℚ :=
  (parseDurationToMilliseconds durationString).map (fun ms => startDate + ms)

/-- Embedding of calculateProgressiveInterest (src/utils/dateUtils.js). -/
def calculateProgressiveInterest (totalInterest : ℚ) (startDate endDate checkDate : ℚ) : ℚ :=
  let totalDuration := endDate - startDate
  let elapsedDuration := min (checkDate - startDate) totalDuration
  if elapsedDuration ≤ 0 then 0
  else if totalDuration ≤ elapsedDuration then totalInterest
  else
    let progress := elapsedDuration / totalDuration
    (jsRound (totalInterest * progress * 100) : ℚ) / 100

/-- Embedding of isInvestmentDue (src/utils/dateUtils.js):
currentDate greater or equal to endDate. -/
def isInvestmentDue (endDate currentDate : ℚ) : Bool := endDate ≤ currentDate

/-- Embedding of formatTimeRemaining (src/utils/dateUtils.js). -/
def formatTimeRemaining (endDate currentDate : ℚ) : String :=
  let timeRemaining := endDate - currentDate
  if timeRemaining ≤ 0 then "Investment completed"
  else
    let days : ℤ := ⌊timeRemaining / (24 * 60 * 60 * 1000)⌋
    let hours : ℤ := ⌊jsModPos timeRemaining (24 * 60 * 60 * 1000) / (60 * 60 * 1000)⌋
    let minutes : ℤ := ⌊jsModPos timeRemaining (60 * 60 * 1000) / (60 * 1000)⌋
    if 0 < days then
      toString days ++ " day" ++ (if 1 < days then "s" else "") ++ ", " ++
        toString hours ++ " hour" ++ (if 1 < hours then "s" else "")
    else if 0 < hours then
      toString hours ++ " hour" ++ (if 1 < hours then "s" else "") ++ ", " ++
        toString minutes ++ " minute" ++ (if 1 < minutes then "s" else "")
    else
      toString minutes ++ " minute" ++ (if 1 < minutes then "s" else "")

/-!
Data model: the entities of src/models as used by src/routes/plans.js and
the scheduler.  JS numbers are rationals, stores are association lists.
-/

/-- Plan document (fields used by src/routes/plans.js). -/
structure Plan where
  name : String
  description : String
  roi : ℚ
  minAmount : ℚ
  duration : String
  features : List String
  isActive : Bool
deriving DecidableEq

/-- User document, restricted to the fields this module reads or writes. -/
structure User where
  email : String
  username : String
  fullName : String
  deposit : ℚ
  interest : ℚ
deriving DecidableEq

/-- Denormalized user snapshot stored inside an investment transaction. -/
structure TxUser where
  id : ℕ
  email : String
  name : String
deriving DecidableEq

/-- Plan snapshot embedded in an investment transaction (planData).
endDate is optional to model documents where the field is absent or null,
which the scheduler query filters on. -/
structure PlanData where
  plan : String
  duration : String
  interest : ℚ
  startDate : ℚ
  endDate : Option ℚ
  currentInterest : ℚ
deriving DecidableEq

/-- Transaction document of type investment. -/
structure Transaction where
  txType : String
  user : TxUser
  status : String
  amount : ℚ
  planData : PlanData
deriving DecidableEq

/-- Mongoose save of a user document: replace every entry of the store
bearing the document id. -/
def updateUser (users : List (ℕ × User)) (id : ℕ) (u : User) : List (ℕ × User) :=
  users.map (fun p => if p.1 = id then (id, u) else p)

/-- Mongoose save of a transaction document in the keyed store. -/
def updateTx (txs : List (ℕ × Transaction)) (id : ℕ) (tx : Transaction) :
    List (ℕ × Transaction) :=
  txs.map (fun p => if p.1 = id then (id, tx) else p)

/-- Notifications dispatched by the mailer collaborator, recording the
amount value the source passes to it. -/
inductive Notif where
  | approvedMail (email : String) (amount : ℚ)
  | rejectedMail (email : String) (amount : ℚ)
  | completedMail (email : String) (amount : ℚ)
deriving DecidableEq

/-!
POST /api/plans — plan creation (src/routes/plans.js, router.post("/")).
-/

/-- Request body of POST /api/plans; absent fields are none. -/
structure PlanReq where
  name : Option String
  description : Option String
  roi : Option ℚ
  minAmount : Option ℚ
  duration : Option String
  features : Option (List String)
deriving DecidableEq

/-- Response of plan creation: 400 with a message, or 201 with the plan. -/
inductive PlanResp where
  | badRequest (msg : String)
  | created (p : Plan)
deriving DecidableEq

/-- Embedding of router.post("/") in src/routes/plans.js.  The first check
is the JS truthiness test on all six fields: a missing field, an empty
string, or the number 0 is falsy and yields the 400 `All fields are
required` response.  A present features array (even empty) is truthy in
JS, so features only fails the later length check.  The duplicate-name
regex is modelled as case-insensitive equality, exact for names without
regex metacharacters. -/
def createPlan (existing : List Plan) (req : PlanReq) : PlanResp :=
  match req.name, req.description, req.roi, req.minAmount, req.duration, req.features with
  | some name, some description, some roi, some minAmount, some duration, some features =>
    if name = "" ∨ description = "" ∨ roi = 0 ∨ minAmount = 0 ∨ duration = "" then
      .badRequest "All fields are required"
    else if roi < 0 ∨ 1000 < roi then
      .badRequest "ROI must be between 0 and 1000"
    else if minAmount < 0 then
      .badRequest "Minimum amount must be positive"
    else if features.length = 0 then
      .badRequest "At least one feature is required"
    else if existing.any (fun p => jsToLowercase p.name == jsToLowercase name) then
      .badRequest "Plan name already exists"
    else
      .created { name := name, description := description, roi := roi,
                 minAmount := minAmount, duration := duration,
                 features := features.filter (fun f => !(jsTrim f == "")),
                 isActive := true }
  | _, _, _, _, _, _ => .badRequest "All fields are required"

/-!
POST /api/plans/invest — investment creation (router.post("/invest")).
-/

/-- Request body of POST /api/plans/invest. -/
structure InvestReq where
  planId : ℕ
  amount : ℚ
  userId : ℕ
  interest : Option ℚ
deriving DecidableEq

/-- Response of investment creation.  `created` carries the remaining
balance and the saved transaction; `serverError` is the 500 path reached
when calculateEndDate throws on a malformed plan duration. -/
inductive InvestResp where
  | notFound (msg : String)
  | badRequest (msg : String)
  | serverError (msg : String)
  | created (remainingBalance : ℚ) (tx : Transaction)
deriving DecidableEq

/-- Embedding of router.post("/invest") in src/routes/plans.js.  Returns
the user store after the handler ran, the transaction store, and the
response.  The debit (user.deposit -= amount; user.save()) happens before
calculateEndDate, so the malformed-duration throw leaves the debit
persisted.  totalInterest is `interest || amount * roi / 100`: a zero
override is falsy in JS and falls back to the formula. -/
def invest (plans : List (ℕ × Plan)) (users : List (ℕ × User))
    (txs : List Transaction) (req : InvestReq) (now : ℚ) :
    List (ℕ × User) × List Transaction × InvestResp :=
  match plans.lookup req.planId with
  | none => (users, txs, .notFound "Plan not found")
  | some plan =>
    if !plan.isActive then (users, txs, .notFound "Plan not found")
    else if req.amount < plan.minAmount then
      (users, txs, .badRequest ("Minimum amount is $" ++ toString plan.minAmount))
    else
      match users.lookup req.userId with
      | none => (users, txs, .notFound "User not found")
      | some user =>
        if user.deposit < req.amount then
          (users, txs, .badRequest ("Insufficient balance. Available: $" ++ toString user.deposit))
        else
          let user1 : User := { user with deposit := user.deposit - req.amount }
          let users1 := updateUser users req.userId user1
          match calculateEndDate now plan.duration with
          | none => (users1, txs, .serverError ("Invalid duration format: " ++ plan.duration))
          | some endDate =>
            let totalInterest : ℚ :=
              match req.interest with
              | some i => if i = 0 then req.amount * plan.roi / 100 else i
              | none => req.amount * plan.roi / 100
            let tx : Transaction :=
              { txType := "investment",
                user := { id := req.userId, email := user.email, name := user.username },
                status := "active",
                amount := req.amount,
                planData := { plan := plan.name, duration := plan.duration,
                              interest := totalInterest, startDate := now,
                              endDate := some endDate, currentInterest := 0 } }
            (users1, txs ++ [tx], .created user1.deposit tx)

/-!
PUT /api/plans/investment/:id — admin status transition
(router.put("/investment/:id")).
-/

/-- Response of the admin status transition. -/
inductive StatusResp where
  | notFound (msg : String)
  | ok (tx : Transaction)
deriving DecidableEq

/-- The transaction document after the admin handler body ran for a given
target status: the status field is always assigned, and the rejected
branch zeroes the stored amount. -/
def adminTx (tx : Transaction) (status : String) : Transaction :=
  let tx1 := { tx with status := status }
  if status = "rejected" then { tx1 with amount := 0 } else tx1

/-- Embedding of router.put("/investment/:id") in src/routes/plans.js.
Takes the looked-up transaction (none models a missing document) and
returns the user store, the saved transaction, the notifications sent,
and the response.  In the rejected branch the credit uses the stored
amount read before zeroing, while the notification passes
transaction.amount read after zeroing. -/
def updateInvestmentStatus (users : List (ℕ × User)) (txOpt : Option Transaction)
    (status : String) :
    List (ℕ × User) × Option Transaction × List Notif × StatusResp :=
  match txOpt with
  | none => (users, none, [], .notFound "Investment not found")
  | some tx =>
    if !(tx.txType == "investment") then
      (users, some tx, [], .notFound "Investment not found")
    else
      match users.lookup tx.user.id with
      | none => (users, some tx, [], .notFound "User not found")
      | some user =>
        let txDone := adminTx tx status
        if status = "rejected" then
          let user1 : User := { user with deposit := user.deposit + tx.amount }
          (updateUser users tx.user.id user1, some txDone,
            [.rejectedMail user.email txDone.amount], .ok txDone)
        else if status = "approved" then
          (users, some txDone, [.approvedMail user.email txDone.amount], .ok txDone)
        else if status = "completed" then
          let user1 : User := { user with deposit := user.deposit + tx.amount,
                                          interest := user.interest + tx.planData.interest }
          (updateUser users tx.user.id user1, some txDone,
            [.completedMail user.email txDone.amount], .ok txDone)
        else
          (users, some txDone, [], .ok txDone)

/-!
Completion scheduler (src/unnamed/part_000, processCompletedInvestments).
-/

/-- System state seen by the scheduler: the in-process single-flight flag
and the persisted stores. -/
structure SysState where
  isProcessing : Bool
  users : List (ℕ × User)
  txs : List (ℕ × Transaction)
deriving DecidableEq

/-- The transaction document after the scheduler completes it: status set
to completed and currentInterest set to the full snapshot interest. -/
def sweepTx (tx : Transaction) : Transaction :=
  { tx with status := "completed",
            planData := { tx.planData with currentInterest := tx.planData.interest } }

/-- Per-record body of the scheduler loop: if the record is due, credit
principal to deposit and snapshot interest to interest, mark completed,
save user and record, and send the completion notification; skip (with a
logged error) when the owning user is missing. -/
def completeOne (now : ℚ)
    (acc : List (ℕ × User) × List (ℕ × Transaction) × List Notif)
    (entry : ℕ × Transaction) :
    List (ℕ × User) × List (ℕ × Transaction) × List Notif :=
  match entry.2.planData.endDate with
  | none => acc
  | some endDate =>
    if isInvestmentDue endDate now then
      match acc.1.lookup entry.2.user.id with
      | none => acc
      | some user =>
        let user1 : User := { user with deposit := user.deposit + entry.2.amount,
                                        interest := user.interest + entry.2.planData.interest }
        let tx1 := sweepTx entry.2
        (updateUser acc.1 entry.2.user.id user1, updateTx acc.2.1 entry.1 tx1,
          acc.2.2 ++ [.completedMail user.email tx1.amount])
    else acc

/-- Embedding of processCompletedInvestments.  `dbOk` is the outcome of
the external store query: false models the top-level throw, which the
catch block logs and the finally block follows by releasing the guard.
If the guard flag is already set, the invocation returns at once having
read and written nothing. -/
def processCompletedInvestments (dbOk : Bool) (now : ℚ) (s : SysState) :
    SysState × List Notif :=
  if s.isProcessing then (s, [])
  else if dbOk then
    let active := s.txs.filter (fun p =>
      p.2.txType == "investment" && p.2.status == "active" && p.2.planData.endDate.isSome)
    let r := active.foldl (completeOne now) (s.users, s.txs, [])
    ({ isProcessing := false, users := r.1, txs := r.2.1 }, r.2.2)
  else
    ({ s with isProcessing := false }, [])

/-!
Progress projections (router.get("/investment/:id/progress") and
router.get("/investments/active")), including the unguarded division.
-/

/-- JS number results of the progress computation: a finite value, a
signed infinity, or NaN. -/
inductive JSNum where
  | num (q : ℚ)
  | posInf
  | negInf
  | nan
deriving DecidableEq

/-- JS division on finite operands: division by zero yields NaN for a zero
numerator and a signed infinity otherwise. -/
def jsDiv (a b : ℚ) : JSNum :=
  if b = 0 then (if a = 0 then .nan else if 0 < a then .posInf else .negInf)
  else .num (a / b)

/-- JS multiplication on the extended number domain. -/
def jsMul : JSNum → JSNum → JSNum
  | .num a, .num b => .num (a * b)
  | .nan, _ => .nan
  | _, .nan => .nan
  | .posInf, .posInf => .posInf
  | .posInf, .negInf => .negInf
  | .negInf, .posInf => .negInf
  | .negInf, .negInf => .posInf
  | .posInf, .num b => if b = 0 then .nan else if 0 < b then .posInf else .negInf
  | .negInf, .num b => if b = 0 then .nan else if 0 < b then .negInf else .posInf
  | .num a, .posInf => if a = 0 then .nan else if 0 < a then .posInf else .negInf
  | .num a, .negInf => if a = 0 then .nan else if 0 < a then .negInf else .posInf

/-- JS Math.min: NaN if either argument is NaN. -/
def jsMin : JSNum → JSNum → JSNum
  | .nan, _ => .nan
  | _, .nan => .nan
  | .num a, .num b => .num (min a b)
  | .posInf, y => y
  | x, .posInf => x
  | .negInf, _ => .negInf
  | _, .negInf => .negInf

/-- The progress field computed by both progress projections:
Math.min((currentInterest / totalInterest) * 100, 100), with the division
unguarded. -/
def progressPercent (currentInterest totalInterest : ℚ) : JSNum :=
  jsMin (jsMul (jsDiv currentInterest totalInterest) (.num 100)) (.num 100)

/-- The progress field served by GET /investment/:id/progress and by the
active-investments listing for a stored record at the current time; none
models the 500 path where planData.endDate is absent and .getTime()
throws. -/
def investmentProgressField (tx : Transaction) (now : ℚ) : Option JSNum :=
  match tx.planData.endDate with
  | none => none
  | some endDate =>
    let currentInterest :=
      calculateProgressiveInterest tx.planData.interest tx.planData.startDate endDate now
    some (progressPercent currentInterest tx.planData.interest)

/-!
Shared fixtures and helper lemmas for the claim theorems.
-/

/-- Sample plan used by concrete instantiations. -/
def planA : Plan :=
  { name := "Starter", description := "Basic plan", roi := 10, minAmount := 100,
    duration := "1 day", features := ["daily payouts"], isActive := true }

/-- Sample plan whose duration string does not match the duration regex. -/
def planSoon : Plan := { planA with duration := "soon" }

/-- Sample user used by concrete instantiations. -/
def userA : User :=
  { email := "ann@example.com", username := "ann", fullName := "Ann A",
    deposit := 1000, interest := 0 }

/-- Sample active investment used by concrete instantiations. -/
def txA : Transaction :=
  { txType := "investment",
    user := { id := 7, email := "ann@example.com", name := "ann" },
    status := "active", amount := 200,
    planData := { plan := "Starter", duration := "1 day", interest := 20,
                  startDate := 0, endDate := some 86400000, currentInterest := 0 } }

theorem lookup_updateUser_self (users : List (ℕ × User)) (id : ℕ) (u0 u : User)
    (h : users.lookup id = some u0) : (updateUser users id u).lookup id = some u := by
  induction users with
  | nil => simp [List.lookup] at h
  | cons p rest ih =>
    obtain ⟨k, v⟩ := p
    by_cases hk : k = id
    · subst hk
      simp only [updateUser, List.map_cons, if_true]
      simp [List.lookup]
    · have hne : (id == k) = false := by
        simp only [beq_eq_false_iff_ne]
        exact fun hc => hk hc.symm
      simp only [List.lookup, hne] at h
      simp only [updateUser, List.map_cons]
      rw [if_neg hk]
      simp only [List.lookup, hne]
      simpa only [updateUser] using ih h

/-- C6: the scheduler sweep is single-flight — an invocation that finds the
processing flag set performs no work and changes nothing — and every
invocation that acquires the guard releases it, including when the store
query fails at the top level. -/
theorem scheduler_single_flight_and_guard_release :
    (∀ (dbOk : Bool) (now : ℚ) (s : SysState), s.isProcessing = true →
      processCompletedInvestments dbOk now s = (s, [])) ∧
    (∀ (dbOk : Bool) (now : ℚ) (s : SysState), s.isProcessing = false →
      (processCompletedInvestments dbOk now s).1.isProcessing = false) := by
  constructor
  · intro dbOk now s h
    simp [processCompletedInvestments, h]
  · intro dbOk now s h
    cases dbOk <;> simp [processCompletedInvestments, h]

/-- Witness for C6 at concrete states. -/
theorem scheduler_single_flight_witness :
    processCompletedInvestments true 0 ⟨true, [], []⟩ = (⟨true, [], []⟩, []) ∧
    (processCompletedInvestments false 0 ⟨false, [(7, userA)], [(1, txA)]⟩).1.isProcessing = false :=
  ⟨scheduler_single_flight_and_guard_release.1 true 0 ⟨true, [], []⟩ rfl,
   scheduler_single_flight_and_guard_release.2 false 0 ⟨false, [(7, userA)], [(1, txA)]⟩ rfl⟩

/-- C2: rejecting an investment credits the owner's deposit with the
current stored amount and then zeroes the stored amount, the rejection
notification reports the amount read after zeroing (that is, 0), and a
second rejection of the same record credits the deposit by 0. -/
theorem reject_credits_once_then_zeroes
    (users : List (ℕ × User)) (tx : Transaction) (user : User)
    (htype : tx.txType = "investment")
    (huser : users.lookup tx.user.id = some user) :
    ∃ usersAfter txAfter,
      updateInvestmentStatus users (some tx) "rejected" =
        (usersAfter, some txAfter, [.rejectedMail user.email 0], .ok txAfter) ∧
      usersAfter.lookup tx.user.id = some { user with deposit := user.deposit + tx.amount } ∧
      txAfter.amount = 0 ∧ txAfter.status = "rejected" ∧ txAfter.user = tx.user ∧
      txAfter.txType = "investment" ∧
      (∀ user2, usersAfter.lookup tx.user.id = some user2 →
        ∃ user3, (updateInvestmentStatus usersAfter (some txAfter) "rejected").1.lookup tx.user.id =
            some user3 ∧ user3.deposit = user2.deposit) := by
  refine ⟨updateUser users tx.user.id { user with deposit := user.deposit + tx.amount },
    adminTx tx "rejected", ?_, ?_, ?_, ?_, ?_, ?_, ?_⟩
  · simp [updateInvestmentStatus, htype, huser, adminTx]
  · exact lookup_updateUser_self users tx.user.id user _ huser
  · simp [adminTx]
  · simp [adminTx]
  · simp [adminTx]
  · simp [adminTx, htype]
  · intro user2 h2
    refine ⟨{ user2 with deposit := user2.deposit + (adminTx tx "rejected").amount }, ?_, ?_⟩
    · have htype2 : (adminTx tx "rejected").txType = "investment" := by simp [adminTx, htype]
      have huid : (adminTx tx "rejected").user.id = tx.user.id := by simp [adminTx]
      simp only [updateInvestmentStatus, htype2, huid]
      simp only [h2]
      simp [huid]
      exact lookup_updateUser_self _ tx.user.id user2 _ h2
    · simp [adminTx]

/-- Witness for C2 at a concrete store: the rejection notification carries
amount 0. -/
theorem reject_notification_zero_witness :
    (updateInvestmentStatus [(7, userA)] (some txA) "rejected").2.2.1 =
      [Notif.rejectedMail "ann@example.com" 0] := by
  obtain ⟨ua, ta, heq, -⟩ := reject_credits_once_then_zeroes [(7, userA)] txA userA rfl rfl
  rw [heq]
  rfl

/-- C1 (amended): completing an investment of stored amount A and snapshot
interest T credits the owner's deposit by A and interest balance by T and
sets the status to completed on both paths; the scheduler sweep
additionally sets currentInterest to T, while the admin status-update
path leaves currentInterest unchanged. -/
theorem complete_credits_and_sets_status :
    (∀ (users : List (ℕ × User)) (tx : Transaction) (user : User),
      tx.txType = "investment" → users.lookup tx.user.id = some user →
      updateInvestmentStatus users (some tx) "completed" =
        (updateUser users tx.user.id
          { user with deposit := user.deposit + tx.amount,
                      interest := user.interest + tx.planData.interest },
         some { tx with status := "completed" },
         [.completedMail user.email tx.amount],
         .ok { tx with status := "completed" }) ∧
      ({ tx with status := "completed" } : Transaction).planData.currentInterest =
        tx.planData.currentInterest) ∧
    (∀ (now : ℚ) (users : List (ℕ × User)) (txs : List (ℕ × Transaction))
        (notifs : List Notif) (id : ℕ) (tx : Transaction) (user : User) (endDate : ℚ),
      tx.planData.endDate = some endDate → isInvestmentDue endDate now = true →
      users.lookup tx.user.id = some user →
      completeOne now (users, txs, notifs) (id, tx) =
        (updateUser users tx.user.id
          { user with deposit := user.deposit + tx.amount,
                      interest := user.interest + tx.planData.interest },
         updateTx txs id (sweepTx tx),
         notifs ++ [.completedMail user.email tx.amount]) ∧
      (sweepTx tx).status = "completed" ∧
      (sweepTx tx).planData.currentInterest = tx.planData.interest) := by
  constructor
  · intro users tx user htype huser
    refine ⟨?_, rfl⟩
    simp [updateInvestmentStatus, htype, huser, adminTx]
  · intro now users txs notifs id tx user endDate hed hdue huser
    refine ⟨?_, rfl, rfl⟩
    simp [completeOne, hed, hdue, huser, sweepTx]

/-- Witness for C1 at a concrete store and record. -/
theorem complete_credits_witness :
    updateInvestmentStatus [(7, userA)] (some txA) "completed" =
      (updateUser [(7, userA)] 7
        { userA with deposit := userA.deposit + 200, interest := userA.interest + 20 },
       some { txA with status := "completed" },
       [.completedMail "ann@example.com" 200],
       .ok { txA with status := "completed" }) ∧
    completeOne 86400000 ([(7, userA)], [(1, txA)], []) (1, txA) =
      (updateUser [(7, userA)] 7
        { userA with deposit := userA.deposit + 200, interest := userA.interest + 20 },
       updateTx [(1, txA)] 1 (sweepTx txA),
       [.completedMail "ann@example.com" 200]) := by
  constructor
  · exact (complete_credits_and_sets_status.1 [(7, userA)] txA userA rfl rfl).1
  · have h := (complete_credits_and_sets_status.2 86400000 [(7, userA)] [(1, txA)] []
      1 txA userA 86400000 rfl (by simp [isInvestmentDue]) rfl).1
    simpa using h

/-- Counterexample for C1 as stated: the admin status-update path does not
set currentInterest to the snapshot interest — completing a record whose
snapshot interest is 20 leaves currentInterest at 0. -/
theorem complete_admin_leaves_currentInterest :
    ∃ txAfter,
      (updateInvestmentStatus [(7, userA)] (some txA) "completed").2.1 = some txAfter ∧
      txAfter.planData.currentInterest = 0 ∧
      txAfter.planData.interest = 20 ∧
      ¬((0 : ℚ) = 20) := by
  refine ⟨{ txA with status := "completed" }, ?_, rfl, rfl, by norm_num⟩
  simp [updateInvestmentStatus, txA, adminTx]

theorem calculateProgressiveInterest_zero (s e now : ℚ) :
    calculateProgressiveInterest 0 s e now = 0 := by
  simp only [calculateProgressiveInterest]
  split_ifs with h1 h2
  · rfl
  · rfl
  · simp only [jsRound, zero_mul]
    norm_num

/-- C10: for a stored investment record whose plan-snapshot total interest
is 0, the progress field computed by the progress projections is the
unguarded division 0 / 0, hence NaN rather than a number in [0, 100]. -/
theorem zero_interest_progress_is_nan (tx : Transaction) (now endDate : ℚ)
    (hT : tx.planData.interest = 0) (hE : tx.planData.endDate = some endDate) :
    investmentProgressField tx now = some JSNum.nan := by
  simp only [investmentProgressField, hE, hT, calculateProgressiveInterest_zero]
  simp [progressPercent, jsDiv, jsMul, jsMin]

/-- Sample investment whose snapshot interest is 0. -/
def txZeroInterest : Transaction :=
  { txA with planData := { txA.planData with interest := 0 } }

/-- Witness for C10 at a concrete record. -/
theorem zero_interest_progress_witness :
    investmentProgressField txZeroInterest 5 = some JSNum.nan :=
  zero_interest_progress_is_nan txZeroInterest 5 86400000 rfl rfl

/-- C8: the claim is right about the intended validation (roi in 0–1000,
minAmount at least 0) but the code rejects roi = 0 and minAmount = 0 with
400 `All fields are required`, because the JS truthiness check on required
fields treats the number 0 as missing; the identical request with nonzero
roi and minAmount is accepted with 201. -/
theorem plan_creation_rejects_zero_roi_and_minAmount :
    createPlan [] { name := some "Starter", description := some "Basic plan", roi := some 0,
                    minAmount := some 100, duration := some "1 day",
                    features := some ["daily payouts"] } =
      .badRequest "All fields are required" ∧
    createPlan [] { name := some "Starter", description := some "Basic plan", roi := some 10,
                    minAmount := some 0, duration := some "1 day",
                    features := some ["daily payouts"] } =
      .badRequest "All fields are required" ∧
    createPlan [] { name := some "Starter", description := some "Basic plan", roi := some 10,
                    minAmount := some 100, duration := some "1 day",
                    features := some ["daily payouts"] } =
      .created { name := "Starter", description := "Basic plan", roi := 10, minAmount := 100,
                 duration := "1 day", features := ["daily payouts"], isActive := true } := by
  refine ⟨?_, ?_, ?_⟩
  · simp [createPlan]
  · simp [createPlan]
  · simp only [createPlan]
    norm_num [show ("Starter" = "") = False from by simp,
      show ("Basic plan" = "") = False from by simp,
      show ("1 day" = "") = False from by simp,
      show (jsTrim "daily payouts" == "") = false from by decide, List.filter]

theorem parse_one_day : parseDurationToMilliseconds "1 day" = some 86400000 := by
  simp only [parseDurationToMilliseconds]
  norm_num [show List.takeWhile (fun c => c.isDigit) (jsTrim (jsToLowercase "1 day")).data =
      ['1'] from by decide,
    show List.dropWhile (fun c => c.isDigit) (jsTrim (jsToLowercase "1 day")).data =
      [' ', 'd', 'a', 'y'] from by decide,
    show List.takeWhile (fun c => isJsWhitespace c) [' ', 'd', 'a', 'y'] = [' '] from by decide,
    show List.dropWhile (fun c => isJsWhitespace c) [' ', 'd', 'a', 'y'] = ['d', 'a', 'y']
      from by decide,
    show String.mk ['d', 'a', 'y'] = "day" from rfl,
    show '1'.toNat - 48 = 1 from by decide,
    show ("day" = "minute") = False from by decide,
    show ("day" = "minutes") = False from by decide,
    show ("day" = "hour") = False from by decide,
    show ("day" = "hours") = False from by decide,
    unitToMilliseconds, digitsToNat]

theorem endDate_one_day (now : ℚ) : calculateEndDate now "1 day" = some (now + 86400000) := by
  simp [calculateEndDate, parse_one_day]

/-- Interest recorded in the transaction of a 201 response. -/
def recordedInterest : InvestResp → Option ℚ
  | .created _ tx => some tx.planData.interest
  | _ => none

/-- currentInterest recorded in the transaction of a 201 response. -/
def recordedCurrentInterest : InvestResp → Option ℚ
  | .created _ tx => some tx.planData.currentInterest
  | _ => none

/-- C3 (amended): creating an investment on an active plan with amount at
least the plan minimum, by a user with sufficient deposit, debits the
deposit by exactly the amount (never going negative), records the
transaction as active with currentInterest 0, and records totalInterest
as amount times roi over 100 when no override is given and as the
override when a nonzero override is given. -/
theorem invest_debits_and_computes_interest
    (plans : List (ℕ × Plan)) (users : List (ℕ × User)) (txs : List Transaction)
    (req : InvestReq) (now endDate : ℚ) (plan : Plan) (user : User)
    (hp : plans.lookup req.planId = some plan) (hact : plan.isActive = true)
    (hmin : plan.minAmount ≤ req.amount)
    (hu : users.lookup req.userId = some user) (hbal : req.amount ≤ user.deposit)
    (hed : calculateEndDate now plan.duration = some endDate) :
    ∃ tx, invest plans users txs req now =
        (updateUser users req.userId { user with deposit := user.deposit - req.amount },
         txs ++ [tx], .created (user.deposit - req.amount) tx) ∧
      (updateUser users req.userId { user with deposit := user.deposit - req.amount }).lookup
          req.userId = some { user with deposit := user.deposit - req.amount } ∧
      0 ≤ user.deposit - req.amount ∧
      tx.planData.currentInterest = 0 ∧
      tx.status = "active" ∧
      (req.interest = none → tx.planData.interest = req.amount * plan.roi / 100) ∧
      (∀ i, req.interest = some i → ¬ i = 0 → tx.planData.interest = i) := by
  refine ⟨{ txType := "investment",
            user := { id := req.userId, email := user.email, name := user.username },
            status := "active", amount := req.amount,
            planData := { plan := plan.name, duration := plan.duration,
                          interest := match req.interest with
                            | some i => if i = 0 then req.amount * plan.roi / 100 else i
                            | none => req.amount * plan.roi / 100,
                          startDate := now, endDate := some endDate, currentInterest := 0 } },
    ?_, ?_, ?_, rfl, rfl, ?_, ?_⟩
  · simp only [invest, hp, hact, hu, hed, Bool.not_true, Bool.false_eq_true, if_false,
      if_neg (not_lt.2 hmin), if_neg (not_lt.2 hbal)]
  · exact lookup_updateUser_self users req.userId user _ hu
  · linarith
  · intro h
    simp only [h]
  · intro i hi hne
    simp only [hi, if_neg hne]

/-- Witness for C3: deposit 1000, amount 200, roi 10 percent gives
remaining balance 800 and recorded totalInterest 20. -/
theorem invest_debits_witness :
    ∃ tx, invest [(1, planA)] [(7, userA)] []
        { planId := 1, amount := 200, userId := 7, interest := none } 0 =
      (updateUser [(7, userA)] 7 { userA with deposit := userA.deposit - 200 },
       [tx], .created (userA.deposit - 200) tx) ∧
      tx.planData.interest = 20 ∧ userA.deposit - 200 = 800 := by
  obtain ⟨tx, heq, hlook, hnn, hci, hst, hform, hover⟩ :=
    invest_debits_and_computes_interest [(1, planA)] [(7, userA)] []
      { planId := 1, amount := 200, userId := 7, interest := none } 0 (0 + 86400000) planA userA
      rfl rfl (by norm_num [planA]) rfl (by norm_num [userA]) (endDate_one_day 0)
  refine ⟨tx, by simpa using heq, ?_, by norm_num [userA]⟩
  rw [hform rfl]
  norm_num [planA]

/-- Counterexample for C3 as stated: supplying the explicit override 0 does
not record totalInterest 0 — the zero override is falsy in JS, so the
formula value 20 is recorded instead. -/
theorem invest_zero_override_uses_formula :
    recordedInterest (invest [(1, planA)] [(7, userA)] []
        { planId := 1, amount := 200, userId := 7, interest := some 0 } 0).2.2 = some 20 ∧
    ¬((20 : ℚ) = 0) := by
  constructor
  · simp only [invest, List.lookup]
    norm_num [planA, userA, endDate_one_day 0, recordedInterest]
  · norm_num

/-- C4 (amended): an investment-creation request failing the minimum-amount
or the balance check is rejected with 400 and leaves the user and
transaction stores unchanged, and likewise every 404 path (plan missing,
plan inactive, user missing) leaves the stores unchanged — no debit occurs
on any 400/404 failure path of creation; the unchecked failure path
through a malformed plan duration, however, fails 500 only after the
debit has been persisted. -/
theorem invest_validation_failure_leaves_state
    (plans : List (ℕ × Plan)) (users : List (ℕ × User)) (txs : List Transaction)
    (req : InvestReq) (now : ℚ) :
    (plans.lookup req.planId = none →
      invest plans users txs req now = (users, txs, .notFound "Plan not found")) ∧
    (∀ plan, plans.lookup req.planId = some plan → plan.isActive = false →
      invest plans users txs req now = (users, txs, .notFound "Plan not found")) ∧
    (∀ plan, plans.lookup req.planId = some plan → plan.isActive = true →
      req.amount < plan.minAmount →
      invest plans users txs req now =
        (users, txs, .badRequest ("Minimum amount is $" ++ toString plan.minAmount))) ∧
    (∀ plan, plans.lookup req.planId = some plan → plan.isActive = true →
      plan.minAmount ≤ req.amount → users.lookup req.userId = none →
      invest plans users txs req now = (users, txs, .notFound "User not found")) ∧
    (∀ plan user, plans.lookup req.planId = some plan → plan.isActive = true →
      plan.minAmount ≤ req.amount → users.lookup req.userId = some user →
      user.deposit < req.amount →
      invest plans users txs req now =
        (users, txs, .badRequest ("Insufficient balance. Available: $" ++
          toString user.deposit))) := by
  refine ⟨?_, ?_, ?_, ?_, ?_⟩
  · intro hnone
    simp only [invest, hnone]
  · intro plan hp hinact
    simp only [invest, hp, hinact, Bool.not_false, if_true]
  · intro plan hp hact hlt
    simp only [invest, hp, hact, Bool.not_true, Bool.false_eq_true, if_false, if_pos hlt]
  · intro plan hp hact hge hunone
    simp only [invest, hp, hact, hunone, Bool.not_true, Bool.false_eq_true, if_false,
      if_neg (not_lt.2 hge)]
  · intro plan user hp hact hge hu hbal
    simp only [invest, hp, hact, hu, Bool.not_true, Bool.false_eq_true, if_false,
      if_neg (not_lt.2 hge), if_pos hbal]

/-- Witness for C4: an amount below the plan minimum leaves the user store
untouched, and so does a request naming a missing plan. -/
theorem invest_validation_witness :
    (invest [(1, planA)] [(7, userA)] []
        { planId := 1, amount := 50, userId := 7, interest := none } 0).1 = [(7, userA)] ∧
    invest [] [(7, userA)] []
        { planId := 1, amount := 50, userId := 7, interest := none } 0 =
      ([(7, userA)], [], .notFound "Plan not found") := by
  constructor
  · have heq := (invest_validation_failure_leaves_state [(1, planA)] [(7, userA)] []
      { planId := 1, amount := 50, userId := 7, interest := none } 0).2.2.1 planA rfl rfl
      (by norm_num [planA])
    rw [heq]
  · exact (invest_validation_failure_leaves_state [] [(7, userA)] []
      { planId := 1, amount := 50, userId := 7, interest := none } 0).1 rfl

/-- Counterexample for the universal no-debit clause of C4: investing on a
stored plan whose duration string is malformed debits the user, persists
the debit, and then fails with the 500 path, so a failure path of creation
does debit the user. -/
theorem invest_malformed_duration_debits :
    invest [(1, planSoon)] [(7, userA)] []
        { planId := 1, amount := 200, userId := 7, interest := none } 0 =
      ([(7, { userA with deposit := 800 })], [],
        .serverError "Invalid duration format: soon") ∧
    ¬(userA.deposit = 800) := by
  constructor
  · simp only [invest, List.lookup]
    norm_num [planSoon, planA, userA, updateUser, calculateEndDate,
      show parseDurationToMilliseconds "soon" = none from by decide,
      show ("Invalid duration format: " ++ "soon" : String) = "Invalid duration format: soon"
        from rfl]
  · norm_num [userA]

/-- One lifecycle mutation of a stored investment record after creation:
an admin status transition (src/routes/plans.js) or a scheduler
completion (src/unnamed/part_000). -/
inductive LifeStep : Transaction → Transaction → Prop
  | admin (status : String) (tx : Transaction) : LifeStep tx (adminTx tx status)
  | sweep (tx : Transaction) : LifeStep tx (sweepTx tx)

theorem adminTx_planData (tx : Transaction) (status : String) :
    (adminTx tx status).planData = tx.planData := by
  simp only [adminTx]
  split_ifs <;> rfl

theorem lifeStep_preserves (tx tx2 : Transaction) (h : LifeStep tx tx2)
    (hinv : tx.planData.currentInterest ≤ tx.planData.interest) :
    tx.planData.currentInterest ≤ tx2.planData.currentInterest ∧
    tx2.planData.currentInterest ≤ tx2.planData.interest := by
  cases h with
  | admin status tx => rw [adminTx_planData]; exact ⟨le_refl _, hinv⟩
  | sweep tx => exact ⟨hinv, le_refl _⟩

/-- C7 (amended): a record created through the investment route has
currentInterest 0; along lifecycle steps the snapshot interest is
preserved, admin transitions leave currentInterest unchanged and the
scheduler completion sets it to the full snapshot interest, so for every
record whose snapshot interest is at least its currentInterest (in
particular every record created without a negative override),
currentInterest stays at most the snapshot interest and is monotonically
non-decreasing along every step. -/
theorem currentInterest_invariant :
    (∀ (plans : List (ℕ × Plan)) (users : List (ℕ × User)) (txs : List Transaction)
        (req : InvestReq) (now rb : ℚ) (tx : Transaction),
      (invest plans users txs req now).2.2 = .created rb tx →
      tx.planData.currentInterest = 0) ∧
    (∀ (tx : Transaction) (status : String),
      (adminTx tx status).planData.currentInterest = tx.planData.currentInterest) ∧
    (∀ tx : Transaction, (sweepTx tx).planData.currentInterest = tx.planData.interest) ∧
    (∀ tx tx2 : Transaction, LifeStep tx tx2 →
      tx.planData.currentInterest ≤ tx.planData.interest →
      tx.planData.currentInterest ≤ tx2.planData.currentInterest ∧
      tx2.planData.currentInterest ≤ tx2.planData.interest) ∧
    (∀ tx0 tx : Transaction, Relation.ReflTransGen LifeStep tx0 tx →
      tx0.planData.currentInterest ≤ tx0.planData.interest →
      tx.planData.currentInterest ≤ tx.planData.interest) := by
  refine ⟨?_, ?_, ?_, lifeStep_preserves, ?_⟩
  · intro plans users txs req now rb tx h
    simp only [invest] at h
    repeat' split at h
    all_goals simp_all
    all_goals rw [← h.2]
  · intro tx status
    rw [adminTx_planData]
  · intro tx
    rfl
  · intro tx0 tx h h0
    induction h with
    | refl => exact h0
    | tail _ hstep ih => exact (lifeStep_preserves _ _ hstep ih).2

/-- Witness for C7 at a concrete record and step. -/
theorem currentInterest_invariant_witness :
    txA.planData.currentInterest ≤ txA.planData.interest ∧
    (sweepTx txA).planData.currentInterest ≤ (sweepTx txA).planData.interest := by
  constructor
  · exact currentInterest_invariant.2.2.2.2 txA txA Relation.ReflTransGen.refl
      (by norm_num [txA])
  · exact (currentInterest_invariant.2.2.2.1 txA (sweepTx txA) (LifeStep.sweep txA)
      (by norm_num [txA])).2

/-- Counterexample for C7 as stated: the creation route accepts a negative
explicit interest override, producing a record whose currentInterest 0
exceeds its snapshot interest -5, so the invariant fails over all
reachable records. -/
theorem invest_negative_override_breaks_invariant :
    recordedInterest (invest [(1, planA)] [(7, userA)] []
        { planId := 1, amount := 200, userId := 7, interest := some (-5) } 0).2.2 =
      some (-5) ∧
    recordedCurrentInterest (invest [(1, planA)] [(7, userA)] []
        { planId := 1, amount := 200, userId := 7, interest := some (-5) } 0).2.2 =
      some 0 ∧
    ¬((0 : ℚ) ≤ -5) := by
  refine ⟨?_, ?_, by norm_num⟩
  · simp only [invest, List.lookup]
    norm_num [planA, userA, endDate_one_day 0, recordedInterest]
  · simp only [invest, List.lookup]
    norm_num [planA, userA, endDate_one_day 0, recordedCurrentInterest]

/-- One unit of the remaining-time string as the claim describes it:
the count, the unit word, and an s exactly when the count exceeds 1. -/
def timeUnitPart (n : ℤ) (unitWord : String) : String :=
  toString n ++ unitWord ++ (if 1 < n then "s" else "")

/-- Remaining-time rendering as the claim words it: the coarsest two units
— days and hours when whole days remain, else hours and minutes when
whole hours remain, else minutes alone. -/
def specTimeString (d h m : ℤ) : String :=
  if 0 < d then timeUnitPart d " day" ++ ", " ++ timeUnitPart h " hour"
  else if 0 < h then timeUnitPart h " hour" ++ ", " ++ timeUnitPart m " minute"
  else timeUnitPart m " minute"

/-- C9: formatTimeRemaining returns the completion sentinel when the
remaining time is not positive; otherwise, when exactly d days, h hours,
m minutes (and a sub-minute remainder) remain, it reports days and hours
if d is positive, else hours and minutes if h is positive, else minutes
alone, pluralizing each reported unit exactly when its count exceeds 1. -/
theorem format_time_remaining_reports_two_units (endDate now : ℚ) (d h m : ℕ) (r : ℚ) :
    (endDate - now ≤ 0 → formatTimeRemaining endDate now = "Investment completed") ∧
    (0 < endDate - now →
      endDate - now = (d : ℚ) * 86400000 + (h : ℚ) * 3600000 + (m : ℚ) * 60000 + r →
      0 ≤ r → r < 60000 → h < 24 → m < 60 →
      formatTimeRemaining endDate now = specTimeString d h m) := by
  constructor
  · intro hle
    simp only [formatTimeRemaining, if_pos hle]
  · intro hpos hdecomp hr0 hr1 hh hm
    have hb : ¬(endDate - now ≤ 0) := not_le.2 hpos
    have hhQ : (h : ℚ) ≤ 23 := by exact_mod_cast Nat.lt_succ_iff.mp hh
    have hmQ : (m : ℚ) ≤ 59 := by exact_mod_cast Nat.lt_succ_iff.mp hm
    have hh0 : (0 : ℚ) ≤ (h : ℚ) := Nat.cast_nonneg h
    have hm0 : (0 : ℚ) ≤ (m : ℚ) := Nat.cast_nonneg m
    have hd0 : (0 : ℚ) ≤ (d : ℚ) := Nat.cast_nonneg d
    have hdays : ⌊(endDate - now) / (24 * 60 * 60 * 1000)⌋ = (d : ℤ) := by
      rw [Int.floor_eq_iff, le_div_iff (by norm_num : (0:ℚ) < 24 * 60 * 60 * 1000),
        div_lt_iff (by norm_num : (0:ℚ) < 24 * 60 * 60 * 1000)]
      constructor
      · push_cast
        linarith
      · push_cast
        linarith
    have hmod1 : jsModPos (endDate - now) (24 * 60 * 60 * 1000) =
        (h : ℚ) * 3600000 + (m : ℚ) * 60000 + r := by
      rw [jsModPos, hdays, hdecomp]
      push_cast
      ring
    have hhours : ⌊jsModPos (endDate - now) (24 * 60 * 60 * 1000) / (60 * 60 * 1000)⌋ =
        (h : ℤ) := by
      rw [hmod1, Int.floor_eq_iff, le_div_iff (by norm_num : (0:ℚ) < 60 * 60 * 1000),
        div_lt_iff (by norm_num : (0:ℚ) < 60 * 60 * 1000)]
      constructor
      · push_cast
        linarith
      · push_cast
        linarith
    have hfl2 : ⌊(endDate - now) / (60 * 60 * 1000)⌋ = (d : ℤ) * 24 + (h : ℤ) := by
      rw [Int.floor_eq_iff, le_div_iff (by norm_num : (0:ℚ) < 60 * 60 * 1000),
        div_lt_iff (by norm_num : (0:ℚ) < 60 * 60 * 1000)]
      constructor
      · push_cast
        linarith
      · push_cast
        linarith
    have hmod2 : jsModPos (endDate - now) (60 * 60 * 1000) = (m : ℚ) * 60000 + r := by
      rw [jsModPos, hfl2, hdecomp]
      push_cast
      ring
    have hmins : ⌊jsModPos (endDate - now) (60 * 60 * 1000) / (60 * 1000)⌋ = (m : ℤ) := by
      rw [hmod2, Int.floor_eq_iff, le_div_iff (by norm_num : (0:ℚ) < 60 * 1000),
        div_lt_iff (by norm_num : (0:ℚ) < 60 * 1000)]
      constructor
      · push_cast
        linarith
      · push_cast
        linarith
    simp only [formatTimeRemaining, if_neg hb, hdays, hhours, hmins, specTimeString,
      timeUnitPart, String.append_assoc]

/-- Witness for C9: exactly 2 days 3 hours remaining yields the
days-and-hours string with no minutes, and zero remaining yields the
sentinel. -/
theorem format_time_remaining_witness :
    formatTimeRemaining 183600000 0 = specTimeString 2 3 0 ∧
    specTimeString 2 3 0 = "2 days, 3 hours" ∧
    formatTimeRemaining 5 5 = "Investment completed" := by
  refine ⟨?_, by decide, ?_⟩
  · exact (format_time_remaining_reports_two_units 183600000 0 2 3 0 0).2
      (by norm_num) (by norm_num) le_rfl (by norm_num) (by norm_num) (by norm_num)
  · exact (format_time_remaining_reports_two_units 5 5 0 0 0 0).1 (by norm_num)

/-- Counterexample for C5 as stated: with T = 17/256, start 0, end 1024,
the value at now = 1008 rounds up to 0.07, which exceeds T, violating the
[0, T] bound; and at now = 1024 the value is exactly T, smaller than the
value at the earlier instant 1008, violating monotonicity. -/
theorem progressive_interest_rounding_overshoot :
    calculateProgressiveInterest (17/256) 0 1024 1008 = 7/100 ∧
    calculateProgressiveInterest (17/256) 0 1024 1024 = 17/256 ∧
    ¬((7 : ℚ)/100 ≤ 17/256) ∧ (1008 : ℚ) ≤ 1024 := by
  refine ⟨?_, ?_, by norm_num, by norm_num⟩
  · simp only [calculateProgressiveInterest, jsRound]
    norm_num [min_def]
  · simp only [calculateProgressiveInterest, jsRound]
    norm_num [min_def]

/-- C5 (amended): for totalInterest T at least 0 and end after start, the
progressive interest is 0 at or before the start, exactly T at or after
the end, non-negative, at most T + 1/200 (the rounding at the cent can
overshoot T by up to half a cent just before the end), monotone
non-decreasing in now on the region strictly before the end (across the
end boundary the value can drop by less than half a cent to exactly T),
and strictly between the endpoints equals T times the elapsed fraction,
rounded half-up at the cent. -/
theorem progressive_interest_bounds_and_monotone (T s e : ℚ) (hT : 0 ≤ T) (hse : s < e) :
    (∀ now, now ≤ s → calculateProgressiveInterest T s e now = 0) ∧
    (∀ now, e ≤ now → calculateProgressiveInterest T s e now = T) ∧
    (∀ now, 0 ≤ calculateProgressiveInterest T s e now) ∧
    (∀ now, calculateProgressiveInterest T s e now ≤ T + 1/200) ∧
    (∀ now1 now2, now1 ≤ now2 → now2 < e →
      calculateProgressiveInterest T s e now1 ≤ calculateProgressiveInterest T s e now2) ∧
    (∀ now, s < now → now < e →
      calculateProgressiveInterest T s e now =
        (jsRound (T * ((now - s) / (e - s)) * 100) : ℚ) / 100) := by
  have htot : 0 < e - s := sub_pos.2 hse
  have hzero : ∀ now, now ≤ s → calculateProgressiveInterest T s e now = 0 := by
    intro now hnow
    have hmin : min (now - s) (e - s) ≤ 0 :=
      le_trans (min_le_left _ _) (by linarith)
    simp only [calculateProgressiveInterest]
    rw [if_pos hmin]
  have hend : ∀ now, e ≤ now → calculateProgressiveInterest T s e now = T := by
    intro now hnow
    have hmin : min (now - s) (e - s) = e - s := min_eq_right (by linarith)
    simp only [calculateProgressiveInterest, hmin]
    rw [if_neg (by linarith), if_pos (le_refl _)]
  have hinterior : ∀ now, s < now → now < e →
      calculateProgressiveInterest T s e now =
        (jsRound (T * ((now - s) / (e - s)) * 100) : ℚ) / 100 := by
    intro now hs1 hn1
    have hmin : min (now - s) (e - s) = now - s := min_eq_left (by linarith)
    simp only [calculateProgressiveInterest, hmin]
    rw [if_neg (by linarith), if_neg (by linarith)]
  have hnonneg : ∀ now, 0 ≤ calculateProgressiveInterest T s e now := by
    intro now
    simp only [calculateProgressiveInterest]
    split_ifs with h1 h2
    · norm_num
    · exact hT
    · have hmin0 : 0 < min (now - s) (e - s) := not_le.1 h1
      have harg : 0 ≤ T * (min (now - s) (e - s) / (e - s)) * 100 := by
        have := div_nonneg (le_of_lt hmin0) (le_of_lt htot)
        positivity
      have hfl : 0 ≤ jsRound (T * (min (now - s) (e - s) / (e - s)) * 100) := by
        rw [jsRound]
        exact Int.floor_nonneg.2 (by linarith)
      exact div_nonneg (by exact_mod_cast hfl) (by norm_num)
  have hbound : ∀ now, calculateProgressiveInterest T s e now ≤ T + 1/200 := by
    intro now
    simp only [calculateProgressiveInterest]
    split_ifs with h1 h2
    · linarith
    · linarith
    · have hratio : min (now - s) (e - s) / (e - s) ≤ 1 := by
        rw [div_le_one htot]
        exact min_le_right _ _
      have hratio0 : 0 ≤ min (now - s) (e - s) / (e - s) :=
        div_nonneg (le_of_lt (not_le.1 h1)) (le_of_lt htot)
      have hx : T * (min (now - s) (e - s) / (e - s)) * 100 ≤ T * 100 := by
        nlinarith
      have hfl : (jsRound (T * (min (now - s) (e - s) / (e - s)) * 100) : ℚ) ≤
          T * 100 + 1/2 := by
        rw [jsRound]
        have := Int.floor_le (T * (min (now - s) (e - s) / (e - s)) * 100 + 1/2)
        linarith
      rw [div_le_iff (by norm_num : (0:ℚ) < 100)]
      linarith
  have hmono : ∀ now1 now2, now1 ≤ now2 → now2 < e →
      calculateProgressiveInterest T s e now1 ≤ calculateProgressiveInterest T s e now2 := by
    intro now1 now2 h12 h2e
    by_cases hs1 : now1 ≤ s
    · rw [hzero now1 hs1]
      exact hnonneg now2
    · push_neg at hs1
      have h1e : now1 < e := lt_of_le_of_lt h12 h2e
      have hs2 : s < now2 := lt_of_lt_of_le hs1 h12
      rw [hinterior now1 hs1 h1e, hinterior now2 hs2 h2e]
      have hr : (now1 - s) / (e - s) ≤ (now2 - s) / (e - s) := by
        apply div_le_div_of_nonneg_right ?_ htot.le
        · linarith
      have hx : T * ((now1 - s) / (e - s)) * 100 ≤ T * ((now2 - s) / (e - s)) * 100 := by
        nlinarith
      have hfl : jsRound (T * ((now1 - s) / (e - s)) * 100) ≤
          jsRound (T * ((now2 - s) / (e - s)) * 100) := by
        simp only [jsRound]
        exact Int.floor_le_floor (by linarith)
      apply div_le_div_of_nonneg_right ?_ (by norm_num : (0:ℚ) ≤ 100)
      · exact_mod_cast hfl
  exact ⟨hzero, hend, hnonneg, hbound, hmono, hinterior⟩

/-- Witness for C5 at concrete parameters T = 1, start 0, end 2. -/
theorem progressive_interest_witness :
    calculateProgressiveInterest 1 0 2 0 = 0 ∧
    calculateProgressiveInterest 1 0 2 2 = 1 ∧
    calculateProgressiveInterest 1 0 2 1 = 1/2 ∧
    (0 : ℚ) ≤ 1 ∧ (0 : ℚ) < 2 := by
  obtain ⟨hz, he, hn, hb, hm, hi⟩ :=
    progressive_interest_bounds_and_monotone 1 0 2 (by norm_num) (by norm_num)
  refine ⟨hz 0 le_rfl, he 2 le_rfl, ?_, by norm_num, by norm_num⟩
  rw [hi 1 (by norm_num) (by norm_num)]
  simp only [jsRound]
  norm_num
